import Mathlib

/-!
# Verification of the ranking & gamification engine of the `boot` repository

This file gives a shallow embedding of the data model and operations of the
repository's ranking subsystem and of the database helpers in `db.py`, and
proves (or refutes) the specification's claims about them.

Sources:
* `db.py` — the database helpers (`add_user_achievement`, `get_all_achievements`,
  `get_leaderboard`, `like_post`, ...) are embedded as pure functions over an
  explicit database state.
* `test_rank_ladder.py` — the concrete rank catalog inserted by
  `check_rank_definitions`.
* The point calculator, the point ledger / ranking manager and the rank
  resolver live in modules (`enhanced_ranking_system.py`, `ranking_system.py`)
  that are not part of the source tree; those are modelled from the spec, as
  indicated in their doc comments.
-/

/-! ## Point calculator (spec-modelled) -/

/-- Optional numeric metadata attached to a scoring event
(spec §3, `ScoringEvent.metadata`). -/
structure Metadata where
  content_length : Option Int := none
  quality_score : Option Int := none
  like_count : Option Int := none
  consecutive_days : Option Int := none
deriving Repr, DecidableEq

/-- The empty metadata dictionary (an event carrying no metadata). -/
def Metadata.empty : Metadata := {}

/-- Modelled from the spec: the quality length bonus of
`calculate_points('confession_approved', content_length=...)`.  The spec
fixes only that the bonus uses fixed length bands and is monotone in
`content_length` (§4.1 "Quality bonus"); the exact band values are not
specified by the spec and are chosen here as a concrete monotone band table.
No claim depends on the particular values. -/
def lengthBonus (content_length : Option Int) : Int :=
  match content_length with
  | none => 0
  | some len =>
    if len ≥ 500 then 15
    else if len ≥ 300 then 10
    else if len ≥ 100 then 5
    else 0

/-- Modelled from the spec: the quality-score multiplier of
`calculate_points('confession_approved', quality_score=...)` (§4.1):
a higher score scales the approval points multiplicatively, never below the
50-point base.  The exact scale factor is not specified by the spec; the
concrete factor here is monotone and the identity when the score is absent.
No claim depends on the particular values. -/
def qualityScale (base : Int) (quality_score : Option Int) : Int :=
  match quality_score with
  | none => base
  | some q => if q ≥ 0 then base * (4 + q) / 4 else base

/-- Modelled from the spec: `EnhancedPointSystem.calculate_points` of the
missing module `enhanced_ranking_system.py` (spec §4.1).  Pure function from
event type and optional metadata to a signed integer point delta:
base values keyed by event type (submission 0, approval 50, comment 8,
daily login 5, rejection −3, like base 3); a streak multiplier on
`consecutive_days_bonus` (base 10, tiers <30→1.5×, <90→2×, <365→3×, ≥365→5×,
ties to the higher tier); an engagement multiplier on `confession_liked`
(base 3, like_count <10→1×, <100→3×, ≥100→4×); a quality bonus on
`confession_approved`; unknown event types yield 0. -/
def calculate_points (event_type : String) (md : Metadata := {}) : Int :=
  if event_type = "confession_submitted" then 0
  else if event_type = "confession_approved" then
    qualityScale (50 + lengthBonus md.content_length) md.quality_score
  else if event_type = "content_rejected" then -3
  else if event_type = "comment_posted" then 8
  else if event_type = "daily_login" then 5
  else if event_type = "consecutive_days_bonus" then
    let days := (md.consecutive_days).getD 0
    if days < 30 then 10 * 3 / 2
    else if days < 90 then 10 * 2
    else if days < 365 then 10 * 3
    else 10 * 5
  else if event_type = "confession_liked" then
    let likes := (md.like_count).getD 0
    if likes < 10 then 3
    else if likes < 100 then 3 * 3
    else 3 * 4
  else 0

/-- C4: `calculate_points` returns 0 for `confession_submitted` with no
metadata, 50 for `confession_approved` with no metadata, and −3 for
`content_rejected`. -/
theorem C4_calculate_points_base_values :
    calculate_points "confession_submitted" Metadata.empty = 0 ∧
    calculate_points "confession_approved" Metadata.empty = 50 ∧
    calculate_points "content_rejected" Metadata.empty = -3 := by
  refine ⟨rfl, rfl, rfl⟩

/-- C5: the streak bonus multiplies a base of 10 by a tier chosen from
`consecutive_days` with inclusive breakpoints (<30 → 1.5×, <90 → 2×,
<365 → 3×, ≥365 → 5×, a value at a breakpoint taking the higher tier);
in particular 7 → 15, 30 → 20, 90 → 30, 365 → 50. -/
theorem C5_streak_multiplier :
    (∀ d : Int, 0 ≤ d →
      calculate_points "consecutive_days_bonus" { consecutive_days := some d } =
        if d < 30 then 15 else if d < 90 then 20 else if d < 365 then 30 else 50) ∧
    calculate_points "consecutive_days_bonus" { consecutive_days := some 7 } = 15 ∧
    calculate_points "consecutive_days_bonus" { consecutive_days := some 30 } = 20 ∧
    calculate_points "consecutive_days_bonus" { consecutive_days := some 90 } = 30 ∧
    calculate_points "consecutive_days_bonus" { consecutive_days := some 365 } = 50 := by
  refine ⟨?_, rfl, rfl, rfl, rfl⟩
  intro d _
  simp [calculate_points]

/-- Closed witness for the universally quantified part of `C5_streak_multiplier`. -/
theorem C5_streak_multiplier_witness :
    calculate_points "consecutive_days_bonus" { consecutive_days := some 100 } =
      if (100 : Int) < 30 then 15 else if (100 : Int) < 90 then 20
      else if (100 : Int) < 365 then 30 else 50 :=
  C5_streak_multiplier.1 100 (by norm_num)

/-! ## Rank catalog (from `test_rank_ladder.py`) and rank resolution -/

/-- A row of the `rank_definitions` table
(`test_rank_ladder.py`, `check_rank_definitions`). -/
structure RankDefinition where
  rank_id : Nat
  rank_name : String
  rank_emoji : String
  min_points : Nat
  max_points : Option Nat
  special_perks : String
  is_special : Bool
deriving Repr, DecidableEq

/-- The default rank catalog inserted by `check_rank_definitions` in
`test_rank_ladder.py` (lines 33–43), in `rank_id` order. -/
def rank_definitions : List RankDefinition :=
  [ ⟨1, "Freshman", "🥉", 0, some 99, "\x7b\x7d", false⟩,
    ⟨2, "Sophomore", "🥈", 100, some 249, "\x7b\x7d", false⟩,
    ⟨3, "Junior", "🥇", 250, some 499, "\x7b\x7d", false⟩,
    ⟨4, "Senior", "🏆", 500, some 999, "\x7b\"daily_confessions\": 8\x7d", false⟩,
    ⟨5, "Graduate", "🎓", 1000, some 1999,
      "\x7b\"daily_confessions\": 10, \"priority_review\": true\x7d", false⟩,
    ⟨6, "Master", "👑", 2000, some 4999,
      "\x7b\"daily_confessions\": 15, \"priority_review\": true, \"comment_highlight\": true\x7d",
      true⟩,
    ⟨7, "Legend", "🌟", 5000, none,
      "\x7b\"all_perks\": true, \"unlimited_daily\": true, \"legend_badge\": true\x7d", true⟩ ]

/-- Whether a rank's point range contains a given total:
`min_points ≤ p` and, when `max_points` is present, `p ≤ max_points`. -/
def RankDefinition.containsPoints (d : RankDefinition) (p : Nat) : Bool :=
  d.min_points ≤ p &&
    match d.max_points with
    | none => true
    | some m => p ≤ m

/-- Modelled from the spec: the rank resolver `resolve(total_points)`
(spec §4.3) of the missing ranking module — a linear scan over the ordered
catalog returning the first definition whose range contains the total. -/
def resolve (p : Nat) : Option RankDefinition :=
  rank_definitions.find? (fun d => d.containsPoints p)

/-- C2: the rank catalog partitions the non-negative integers — every total
is contained in exactly one definition's range, each tier's `max_points` is
the next tier's `min_points` minus one, only the top tier is open-ended
(and it is the unique tier with a null `max_points`), and a total lying on a
boundary resolves to the tier whose `min_points` equals it. -/
theorem C2_rank_catalog_partition :
    (∀ p : Nat, rank_definitions.countP (fun d => d.containsPoints p) = 1) ∧
    List.Chain' (fun a b => a.max_points = some (b.min_points - 1)) rank_definitions ∧
    (rank_definitions.map RankDefinition.max_points).getLast? = some none ∧
    rank_definitions.countP (fun d => Option.isNone d.max_points) = 1 ∧
    (∀ d ∈ rank_definitions, resolve d.min_points = some d) := by
  refine ⟨?_, ?_, by decide, by decide, by decide⟩
  · intro p
    simp only [rank_definitions, RankDefinition.containsPoints, List.countP_cons,
      List.countP_nil, Bool.and_true, Bool.and_eq_true, decide_eq_true_eq]
    split_ifs <;> omega
  · simp only [rank_definitions]
    repeat constructor

/-- Closed witness for `C2_rank_catalog_partition`: the boundary total 100
resolves to the Sophomore tier, whose `min_points` is 100. -/
theorem C2_rank_catalog_partition_witness :
    resolve 100 =
      some ⟨2, "Sophomore", "🥈", 100, some 249, "\x7b\x7d", false⟩ :=
  C2_rank_catalog_partition.2.2.2.2
    ⟨2, "Sophomore", "🥈", 100, some 249, "\x7b\x7d", false⟩ (by decide)

/-! ## Achievements (`db.py`: `add_user_achievement`, `get_all_achievements`) -/

/-- A row of the `achievements` table (`db.py`, `init_db`). -/
structure Achievement where
  achievement_id : Nat
  achievement_name : String
  description : String
  achievement_type : String
  criteria_value : Int
  icon : String
  is_hidden : Bool
deriving Repr, DecidableEq

/-- A row of the `user_achievements` table (`db.py`, `init_db`); the serial
primary key and the unlock timestamp play no role in the embedded logic. -/
structure UserAchievement where
  user_id : Nat
  achievement_id : Nat
deriving Repr, DecidableEq

/-- The achievement-related tables of the database. -/
structure AchievementDB where
  achievements : List Achievement
  user_achievements : List UserAchievement
deriving Repr, DecidableEq

/-- The duplicate check at the head of `add_user_achievement` (`db.py`
lines 742–749): does a `user_achievements` row joined with `achievements`
match the given user and achievement name? -/
def hasAchievement (db : AchievementDB) (user_id : Nat) (achievement_name : String) : Bool :=
  db.user_achievements.any fun ua =>
    ua.user_id == user_id &&
      db.achievements.any fun a =>
        a.achievement_id == ua.achievement_id && a.achievement_name == achievement_name

/-- `add_user_achievement` (`db.py` lines 734–765): if the user already holds
the achievement, return with no change; otherwise look up the achievement id
by name (first match) and, when found, insert one `user_achievements` row. -/
def add_user_achievement (db : AchievementDB) (user_id : Nat)
    (achievement_name : String) : AchievementDB :=
  if hasAchievement db user_id achievement_name then db
  else
    match db.achievements.find? (fun a => a.achievement_name == achievement_name) with
    | none => db
    | some a =>
      { db with user_achievements := db.user_achievements ++ [⟨user_id, a.achievement_id⟩] }

/-- `get_all_achievements` (`db.py` lines 790–804): with no connection the
result is empty; otherwise it selects `achievement_name, description, icon,
is_hidden` from every row of `achievements`, with no filter. -/
def get_all_achievements (conn : Option AchievementDB) :
    List (String × String × String × Bool) :=
  match conn with
  | none => []
  | some db =>
    db.achievements.map fun a => (a.achievement_name, a.description, a.icon, a.is_hidden)

/-- If the user already holds the achievement, `add_user_achievement` leaves
the database unchanged. -/
theorem add_user_achievement_of_hasAchievement (db : AchievementDB) (u : Nat) (n : String)
    (h : hasAchievement db u n = true) : add_user_achievement db u n = db := by
  simp [add_user_achievement, h]

/-- After a successful insertion the duplicate check finds the new row. -/
theorem hasAchievement_add_user_achievement (db : AchievementDB) (u : Nat) (n : String)
    (a : Achievement)
    (hfind : db.achievements.find? (fun a => a.achievement_name == n) = some a) :
    hasAchievement
      { db with user_achievements := db.user_achievements ++ [⟨u, a.achievement_id⟩] } u n
      = true := by
  have hmem : a ∈ db.achievements := List.mem_of_find?_eq_some hfind
  have hname := List.find?_some hfind
  unfold hasAchievement
  apply List.any_eq_true.mpr
  refine ⟨⟨u, a.achievement_id⟩, List.mem_append_right _ (by simp), ?_⟩
  simp only [Bool.and_eq_true, beq_iff_eq]
  refine ⟨by trivial, ?_⟩
  apply List.any_eq_true.mpr
  exact ⟨a, hmem, by simp_all⟩

/-- C3: an unlock record is created at most once per (user, achievement)
pair: if the user already holds the achievement the operation is a no-op
(the state after the call equals the state before it), and in general the
operation is idempotent — repeating it changes nothing and inserts no
second row. -/
theorem C3_achievement_unlock_idempotent :
    (∀ (db : AchievementDB) (u : Nat) (n : String),
      hasAchievement db u n = true → add_user_achievement db u n = db) ∧
    (∀ (db : AchievementDB) (u : Nat) (n : String),
      add_user_achievement (add_user_achievement db u n) u n = add_user_achievement db u n) := by
  refine ⟨add_user_achievement_of_hasAchievement, ?_⟩
  intro db u n
  by_cases h : hasAchievement db u n = true
  · rw [add_user_achievement_of_hasAchievement db u n h,
      add_user_achievement_of_hasAchievement db u n h]
  · rcases hfind : db.achievements.find? (fun a => a.achievement_name == n) with _ | a
    · have hid : add_user_achievement db u n = db := by
        simp [add_user_achievement, h, hfind]
      rw [hid, hid]
    · have hstep : add_user_achievement db u n =
          { db with user_achievements := db.user_achievements ++ [⟨u, a.achievement_id⟩] } := by
        simp [add_user_achievement, h, hfind]
      rw [hstep]
      exact add_user_achievement_of_hasAchievement _ u n
        (hasAchievement_add_user_achievement db u n a hfind)

/-- Closed witness for `C3_achievement_unlock_idempotent`: a user who already
holds the sole achievement keeps an unchanged database on a repeated unlock. -/
theorem C3_achievement_unlock_idempotent_witness :
    add_user_achievement
      ⟨[⟨1, "First Confession", "d", "milestone", 1, "🏅", false⟩], [⟨42, 1⟩]⟩
      42 "First Confession" =
      ⟨[⟨1, "First Confession", "d", "milestone", 1, "🏅", false⟩], [⟨42, 1⟩]⟩ :=
  C3_achievement_unlock_idempotent.1
    ⟨[⟨1, "First Confession", "d", "milestone", 1, "🏅", false⟩], [⟨42, 1⟩]⟩
    42 "First Confession" (by decide)

/-- A hidden achievement used to exercise the catalog listing. -/
def secretAchievement : Achievement :=
  ⟨3, "Night Owl", "Post at 3am", "secret", 1, "🦉", true⟩

/-- C9 counterexample: `get_all_achievements` does NOT exclude hidden
achievements — its query has no `is_hidden` filter, so a catalog holding a
hidden achievement returns that achievement's row (flagged hidden) in the
public listing. -/
theorem C9_counterexample_hidden_listed :
    secretAchievement.is_hidden = true ∧
    (secretAchievement.achievement_name, secretAchievement.description,
      secretAchievement.icon, secretAchievement.is_hidden) ∈
      get_all_achievements (some ⟨[secretAchievement], []⟩) := by
  constructor
  · rfl
  · simp [get_all_achievements]

/-- C9 (amended): `get_all_achievements` returns one row per catalog entry,
hidden achievements included (each row carries the `is_hidden` flag), and
never drops an entry. -/
theorem C9_get_all_achievements_unfiltered :
    ∀ (db : AchievementDB) (a : Achievement), a ∈ db.achievements →
      (a.achievement_name, a.description, a.icon, a.is_hidden) ∈
          get_all_achievements (some db) ∧
        (get_all_achievements (some db)).length = db.achievements.length := by
  intro db a ha
  constructor
  · exact List.mem_map_of_mem _ ha
  · simp [get_all_achievements]

/-- Closed witness for `C9_get_all_achievements_unfiltered`. -/
theorem C9_get_all_achievements_unfiltered_witness :
    ("Night Owl", "Post at 3am", "🦉", true) ∈
        get_all_achievements (some ⟨[secretAchievement], []⟩) ∧
      (get_all_achievements (some ⟨[secretAchievement], []⟩)).length =
        ([secretAchievement] : List Achievement).length :=
  C9_get_all_achievements_unfiltered ⟨[secretAchievement], []⟩ secretAchievement (by simp)

/-! ## Leaderboard (`db.py`: `get_leaderboard`) -/

/-- A row of the `users` table (`db.py`, `init_db`); `join_date` is the
row's timestamp, embedded as a natural number. -/
structure UserRow where
  user_id : Nat
  username : String
  first_name : String
  last_name : String
  join_date : Nat
  questions_asked : Nat
  comments_posted : Nat
deriving Repr, DecidableEq

/-- The `users` table together with a flag recording whether the SQL query
succeeds (`false` embeds the `psycopg2` query raising, which `db.py`
catches). -/
structure UsersDB where
  users : List UserRow
  query_ok : Bool
deriving Repr, DecidableEq

/-- The rows produced by the `get_leaderboard` query (`db.py` lines
1065–1070): `ORDER BY u.questions_asked DESC LIMIT limit`.  The single-key
`ORDER BY` is embedded as a stable sort on `questions_asked` descending —
rows with equal scores keep their table order, as the query imposes no
further key on them. -/
def leaderboard_rows (db : UsersDB) (limit : Nat) : List UserRow :=
  (db.users.insertionSort fun a b => b.questions_asked ≤ a.questions_asked).take limit

/-- `get_leaderboard` (`db.py` lines 1058–1077): no connection or a failing
query yields `[]`; otherwise each row projects the stored
`(first_name, last_name, username, questions_asked, comments_posted)`. -/
def get_leaderboard (conn : Option UsersDB) (limit : Nat) :
    List (String × String × String × Nat × Nat) :=
  match conn with
  | none => []
  | some db =>
    if db.query_ok then
      (leaderboard_rows db limit).map fun u =>
        (u.first_name, u.last_name, u.username, u.questions_asked, u.comments_posted)
    else []

/-- A user with a later `join_date` stored before a user with an earlier
one, both with the same score. -/
def lateJoiner : UserRow := ⟨1, "late", "Late", "User", 100, 5, 0⟩

/-- The earlier joiner with the same `questions_asked` score. -/
def earlyJoiner : UserRow := ⟨2, "early", "Early", "User", 50, 5, 0⟩

/-- A database state with two equal-score users, the later joiner first. -/
def tieDB : UsersDB := ⟨[lateJoiner, earlyJoiner], true⟩

/-- C6 counterexample: the leaderboard is NOT totally ordered with an
earlier-timestamp tie-break — the query orders by `questions_asked` alone,
so two equal-score users stay in table order even when the later joiner
comes first. -/
theorem C6_counterexample_no_tiebreak :
    ¬ ∀ (db : UsersDB) (limit : Nat),
        List.Chain'
          (fun a b => b.questions_asked < a.questions_asked ∨
            (a.questions_asked = b.questions_asked ∧ a.join_date ≤ b.join_date))
          (leaderboard_rows db limit) := by
  intro h
  have hc := h tieDB 10
  have hrows : leaderboard_rows tieDB 10 = [lateJoiner, earlyJoiner] := by rfl
  rw [hrows] at hc
  simp [List.chain'_cons, lateJoiner, earlyJoiner] at hc

/-- C6 (amended): every rendered leaderboard is sorted by score descending
(`score[i] ≥ score[j]` for `i < j`), but equal scores are left in table
order with no timestamp tie-break. -/
theorem C6_leaderboard_sorted_desc (db : UsersDB) (limit : Nat) :
    List.Pairwise (fun a b => b.questions_asked ≤ a.questions_asked)
      (leaderboard_rows db limit) := by
  letI : IsTotal UserRow (fun a b => b.questions_asked ≤ a.questions_asked) :=
    ⟨fun a b => Nat.le_total b.questions_asked a.questions_asked⟩
  letI : IsTrans UserRow (fun a b => b.questions_asked ≤ a.questions_asked) :=
    ⟨fun _ _ _ h1 h2 => Nat.le_trans h2 h1⟩
  exact List.Pairwise.sublist (List.take_sublist _ _)
    (List.sorted_insertionSort _ db.users)

/-- A stored user whose display fields are her real identity. -/
def aliceRow : UserRow := ⟨7, "alice", "Alice", "Smith", 0, 3, 1⟩

/-- The same `user_id` after the stored first name changed. -/
def aliceRenamedRow : UserRow := ⟨7, "alice", "Renamed", "Smith", 0, 3, 1⟩

/-- C7 counterexample: leaderboard entries are NOT anonymous names derived
only from (user_id, leaderboard_type, window_start) — `get_leaderboard`
displays the stored `first_name`, `last_name` and `username`, so the same
user_id in the same window yields a different display name when the stored
name changes, and the entry reveals the stored real identity. -/
theorem C7_counterexample_real_names :
    get_leaderboard (some ⟨[aliceRow], true⟩) 10 = [("Alice", "Smith", "alice", 3, 1)] ∧
    get_leaderboard (some ⟨[aliceRow], true⟩) 10 ≠
      get_leaderboard (some ⟨[aliceRenamedRow], true⟩) 10 := by
  constructor
  · rfl
  · intro h
    simp [get_leaderboard, leaderboard_rows, aliceRow, aliceRenamedRow,
      List.insertionSort] at h

/-- C7 (amended): every leaderboard entry is the projection of a stored user
row — the displayed name fields are the user's stored `first_name`,
`last_name` and `username` (deterministic over an unchanged state, but not
anonymized). -/
theorem C7_leaderboard_entries_are_stored_identities :
    ∀ (db : UsersDB) (limit : Nat) (e : String × String × String × Nat × Nat),
      e ∈ get_leaderboard (some db) limit →
      ∃ u ∈ db.users,
        e = (u.first_name, u.last_name, u.username, u.questions_asked, u.comments_posted) := by
  intro db limit e he
  by_cases hok : db.query_ok
  · rw [get_leaderboard, if_pos hok] at he
    rcases List.mem_map.mp he with ⟨u, hu, rfl⟩
    have hsort : u ∈ db.users.insertionSort
        (fun a b => b.questions_asked ≤ a.questions_asked) :=
      List.mem_of_mem_take hu
    exact ⟨u, (List.perm_insertionSort _ db.users).mem_iff.mp hsort, rfl⟩
  · rw [get_leaderboard, if_neg hok] at he
    exact absurd he (List.not_mem_nil e)

/-- Closed witness for `C7_leaderboard_entries_are_stored_identities`. -/
theorem C7_leaderboard_entries_witness :
    ∃ u ∈ ([aliceRow] : List UserRow),
      (("Alice", "Smith", "alice", 3, 1) : String × String × String × Nat × Nat) =
        (u.first_name, u.last_name, u.username, u.questions_asked, u.comments_posted) :=
  C7_leaderboard_entries_are_stored_identities ⟨[aliceRow], true⟩ 10
    ("Alice", "Smith", "alice", 3, 1) (by rw [C7_counterexample_real_names.1]; simp)

/-- C8: when the aggregation source is unavailable — no database connection,
or the query raises — `get_leaderboard` returns the empty list (the embedded
failure paths of `db.py` lines 1058–1077 both yield `[]`). -/
theorem C8_get_leaderboard_failure_empty :
    (∀ limit : Nat, get_leaderboard none limit = []) ∧
    (∀ (db : UsersDB) (limit : Nat), db.query_ok = false →
      get_leaderboard (some db) limit = []) := by
  refine ⟨fun _ => rfl, fun db limit h => ?_⟩
  rw [get_leaderboard, if_neg (by simp [h])]

/-- Closed witness for `C8_get_leaderboard_failure_empty`: a failing query
over a populated table still renders an empty leaderboard. -/
theorem C8_get_leaderboard_failure_empty_witness :
    get_leaderboard (some ⟨[aliceRow], false⟩) 10 = [] :=
  C8_get_leaderboard_failure_empty.2 ⟨[aliceRow], false⟩ 10 rfl

/-! ## Post votes (`db.py`: `like_post`) -/

/-- The `vote_type` column of `user_votes` (`db.py`): `'like'` or
`'dislike'`. -/
inductive VoteType where
  | like
  | dislike
deriving Repr, DecidableEq

/-- The state of one post: its `likes` counter and the `user_votes` rows
for that post (pairs of user id and vote type; the `post_id` column is fixed
by context). -/
structure PostState where
  likes : Int
  votes : List (Nat × VoteType)
deriving Repr, DecidableEq

/-- A fresh post: `likes` defaults to 0 and no votes exist
(`db.py`, `init_db`). -/
def freshPost : PostState := ⟨0, []⟩

/-- `like_post` (`db.py` lines 546–595): an existing identical vote is
undone (counter moves back by one, row deleted); an existing opposite vote
is switched (counter moves by two, row updated); otherwise a new vote is
inserted (counter moves by one). -/
def like_post (s : PostState) (user_id : Nat) (is_like : Bool) : PostState :=
  let vote_type := if is_like then VoteType.like else VoteType.dislike
  match s.votes.find? (fun r => r.1 == user_id) with
  | some existing =>
    if existing.2 == vote_type then
      { likes := if vote_type == VoteType.like then s.likes - 1 else s.likes + 1,
        votes := s.votes.filter fun r => !(r.1 == user_id) }
    else
      { likes := if vote_type == VoteType.like then s.likes + 2 else s.likes - 2,
        votes := s.votes.map fun r => if r.1 == user_id then (r.1, vote_type) else r }
  | none =>
      { likes := if vote_type == VoteType.like then s.likes + 1 else s.likes - 1,
        votes := s.votes ++ [(user_id, vote_type)] }

/-- The number of `user_votes` rows with the given vote type. -/
def countVotes (vt : VoteType) (votes : List (Nat × VoteType)) : Nat :=
  (votes.filter fun r => r.2 == vt).length

/-- The counter/rows invariant together with the primary-key property
`(user_id, post_id)` of `user_votes`: at most one row per user. -/
def voteInvariant (s : PostState) : Prop :=
  s.likes = (countVotes .like s.votes : Int) - (countVotes .dislike s.votes : Int) ∧
    (s.votes.map Prod.fst).Nodup

/-- Apply a sequence of `like_post` calls
(each operation is a `(user_id, is_like)` pair). -/
def apply_votes (s : PostState) (ops : List (Nat × Bool)) : PostState :=
  ops.foldl (fun s op => like_post s op.1 op.2) s

lemma countVotes_cons (vt : VoteType) (x : Nat × VoteType) (l : List (Nat × VoteType)) :
    countVotes vt (x :: l) = countVotes vt l + (if x.2 == vt then 1 else 0) := by
  simp only [countVotes, List.filter_cons]
  split <;> simp

lemma countVotes_append_singleton (vt : VoteType) (l : List (Nat × VoteType))
    (x : Nat × VoteType) :
    countVotes vt (l ++ [x]) = countVotes vt l + (if x.2 == vt then 1 else 0) := by
  simp only [countVotes, List.filter_append, List.length_append, List.filter_cons,
    List.filter_nil]
  split <;> simp

lemma vote_counts_step (u : Nat) (votes : List (Nat × VoteType))
    (hnd : (votes.map Prod.fst).Nodup) :
    ∀ ex, votes.find? (fun r => r.1 == u) = some ex →
      (∀ vt : VoteType,
        countVotes vt (votes.filter fun r => !(r.1 == u)) +
          (if ex.2 == vt then 1 else 0) = countVotes vt votes) ∧
      (∀ vtNew vt : VoteType,
        countVotes vt (votes.map fun r => if r.1 == u then (r.1, vtNew) else r) +
          (if ex.2 == vt then 1 else 0) =
          countVotes vt votes + (if vtNew == vt then 1 else 0)) := by
  induction votes with
  | nil => intro ex hex; simp at hex
  | cons r rest ih =>
    rw [List.map_cons] at hnd
    obtain ⟨h1, hndr⟩ := List.nodup_cons.mp hnd
    intro ex hex
    by_cases hr : (r.1 == u) = true
    · rw [show List.find? (fun r => r.1 == u) (r :: rest) = some r from by simp [hr]] at hex
      cases hex
      have hu : u ∉ rest.map Prod.fst := by
        rwa [beq_iff_eq.mp hr] at h1
      have hnokey : ∀ x ∈ rest, (x.1 == u) = false := by
        intro x hx
        exact beq_eq_false_iff_ne.mpr
          (fun h => hu (h ▸ List.mem_map_of_mem Prod.fst hx))
      have hfilter : rest.filter (fun r => !(r.1 == u)) = rest := by
        apply List.filter_eq_self.mpr
        intro x hx
        simp [hnokey x hx]
      have hmap : ∀ vtNew : VoteType,
          rest.map (fun r => if r.1 == u then (r.1, vtNew) else r) = rest := by
        intro vtNew
        have hpt : ∀ x ∈ rest, (if x.1 == u then (x.1, vtNew) else x) = x := by
          intro x hx
          simp [hnokey x hx]
        calc rest.map (fun r => if r.1 == u then (r.1, vtNew) else r)
            = rest.map id := List.map_congr_left hpt
          _ = rest := List.map_id rest
      constructor
      · intro vt
        rw [List.filter_cons_of_neg (by simp [hr]), hfilter, countVotes_cons]
      · intro vtNew vt
        rw [List.map_cons, if_pos hr, hmap vtNew, countVotes_cons, countVotes_cons]
        dsimp only
        omega
    · rw [show List.find? (fun r => r.1 == u) (r :: rest) =
          List.find? (fun r => r.1 == u) rest from by simp [hr]] at hex
      obtain ⟨ih1, ih2⟩ := ih hndr ex hex
      constructor
      · intro vt
        rw [List.filter_cons_of_pos (by simp [hr]), countVotes_cons, countVotes_cons]
        have := ih1 vt
        omega
      · intro vtNew vt
        rw [List.map_cons, if_neg hr, countVotes_cons, countVotes_cons]
        have := ih2 vtNew vt
        omega


lemma like_post_true_none (s : PostState) (u : Nat)
    (hfind : s.votes.find? (fun r => r.1 == u) = none) :
    like_post s u true = ⟨s.likes + 1, s.votes ++ [(u, VoteType.like)]⟩ := by
  simp [like_post, hfind]

lemma like_post_false_none (s : PostState) (u : Nat)
    (hfind : s.votes.find? (fun r => r.1 == u) = none) :
    like_post s u false = ⟨s.likes - 1, s.votes ++ [(u, VoteType.dislike)]⟩ := by
  simp [like_post, hfind]

lemma like_post_true_same (s : PostState) (u : Nat) (ex : Nat × VoteType)
    (hfind : s.votes.find? (fun r => r.1 == u) = some ex) (hex : ex.2 = VoteType.like) :
    like_post s u true = ⟨s.likes - 1, s.votes.filter fun r => !(r.1 == u)⟩ := by
  simp [like_post, hfind, hex]

lemma like_post_false_same (s : PostState) (u : Nat) (ex : Nat × VoteType)
    (hfind : s.votes.find? (fun r => r.1 == u) = some ex) (hex : ex.2 = VoteType.dislike) :
    like_post s u false = ⟨s.likes + 1, s.votes.filter fun r => !(r.1 == u)⟩ := by
  simp [like_post, hfind, hex]

lemma like_post_true_diff (s : PostState) (u : Nat) (ex : Nat × VoteType)
    (hfind : s.votes.find? (fun r => r.1 == u) = some ex) (hex : ex.2 = VoteType.dislike) :
    like_post s u true =
      ⟨s.likes + 2, s.votes.map fun r => if r.1 == u then (r.1, VoteType.like) else r⟩ := by
  simp [like_post, hfind, hex]

lemma like_post_false_diff (s : PostState) (u : Nat) (ex : Nat × VoteType)
    (hfind : s.votes.find? (fun r => r.1 == u) = some ex) (hex : ex.2 = VoteType.like) :
    like_post s u false =
      ⟨s.likes - 2, s.votes.map fun r => if r.1 == u then (r.1, VoteType.dislike) else r⟩ := by
  simp [like_post, hfind, hex]

lemma indicator_self (vt : VoteType) : (if (vt == vt) = true then (1 : Nat) else 0) = 1 := by
  simp

lemma indicator_like_dislike :
    (if (VoteType.like == VoteType.dislike) = true then (1 : Nat) else 0) = 0 := rfl

lemma indicator_dislike_like :
    (if (VoteType.dislike == VoteType.like) = true then (1 : Nat) else 0) = 0 := rfl

lemma nodup_keys_filter (votes : List (Nat × VoteType)) (u : Nat)
    (hnd : (votes.map Prod.fst).Nodup) :
    ((votes.filter fun r => !(r.1 == u)).map Prod.fst).Nodup :=
  List.Nodup.sublist (List.Sublist.map Prod.fst (List.filter_sublist votes)) hnd

lemma keys_map_update (votes : List (Nat × VoteType)) (u : Nat) (vt : VoteType) :
    ((votes.map fun r => if r.1 == u then (r.1, vt) else r).map Prod.fst) =
      votes.map Prod.fst := by
  rw [List.map_map]
  apply List.map_congr_left
  intro r _
  by_cases h : r.1 = u <;> simp [h]

lemma voteInvariant_like_post (s : PostState) (u : Nat) (b : Bool)
    (h : voteInvariant s) : voteInvariant (like_post s u b) := by
  obtain ⟨hsum, hnd⟩ := h
  cases hfind : s.votes.find? (fun r => r.1 == u) with
  | none =>
    have hkeys : u ∉ s.votes.map Prod.fst := by
      intro hm
      rcases List.mem_map.mp hm with ⟨x, hx, hxu⟩
      exact List.find?_eq_none.mp hfind x hx (by simp [hxu])
    have hndkeys : ∀ vt : VoteType, ((s.votes ++ [(u, vt)]).map Prod.fst).Nodup := by
      intro vt
      rw [List.map_append]
      simp only [List.map_cons, List.map_nil]
      rw [List.nodup_append]
      exact ⟨hnd, List.nodup_singleton u, by simpa using hkeys⟩
    cases b
    · rw [like_post_false_none s u hfind]
      refine ⟨?_, hndkeys _⟩
      have hl := countVotes_append_singleton VoteType.like s.votes (u, VoteType.dislike)
      have hd := countVotes_append_singleton VoteType.dislike s.votes (u, VoteType.dislike)
      rw [indicator_dislike_like] at hl
      rw [indicator_self] at hd
      dsimp only at hl hd ⊢
      omega
    · rw [like_post_true_none s u hfind]
      refine ⟨?_, hndkeys _⟩
      have hl := countVotes_append_singleton VoteType.like s.votes (u, VoteType.like)
      have hd := countVotes_append_singleton VoteType.dislike s.votes (u, VoteType.like)
      rw [indicator_self] at hl
      rw [indicator_like_dislike] at hd
      dsimp only at hl hd ⊢
      omega
  | some ex =>
    obtain ⟨hc1, hc2⟩ := vote_counts_step u s.votes hnd ex hfind
    cases b <;> cases hex : ex.2
    · -- b = false, existing like: switch to dislike
      rw [like_post_false_diff s u ex hfind hex]
      refine ⟨?_, by rw [keys_map_update]; exact hnd⟩
      have hl := hc2 VoteType.dislike VoteType.like
      have hd := hc2 VoteType.dislike VoteType.dislike
      rw [hex, indicator_self, indicator_dislike_like] at hl
      rw [hex, indicator_like_dislike, indicator_self] at hd
      dsimp only at hl hd ⊢
      omega
    · -- b = false, existing dislike: undo the dislike
      rw [like_post_false_same s u ex hfind hex]
      refine ⟨?_, nodup_keys_filter s.votes u hnd⟩
      have hl := hc1 VoteType.like
      have hd := hc1 VoteType.dislike
      rw [hex, indicator_dislike_like] at hl
      rw [hex, indicator_self] at hd
      dsimp only at hl hd ⊢
      omega
    · -- b = true, existing like: undo the like
      rw [like_post_true_same s u ex hfind hex]
      refine ⟨?_, nodup_keys_filter s.votes u hnd⟩
      have hl := hc1 VoteType.like
      have hd := hc1 VoteType.dislike
      rw [hex, indicator_self] at hl
      rw [hex, indicator_like_dislike] at hd
      dsimp only at hl hd ⊢
      omega
    · -- b = true, existing dislike: switch to like
      rw [like_post_true_diff s u ex hfind hex]
      refine ⟨?_, by rw [keys_map_update]; exact hnd⟩
      have hl := hc2 VoteType.like VoteType.like
      have hd := hc2 VoteType.like VoteType.dislike
      rw [hex, indicator_dislike_like, indicator_self] at hl
      rw [hex, indicator_self, indicator_like_dislike] at hd
      dsimp only at hl hd ⊢
      omega

lemma voteInvariant_apply_votes (ops : List (Nat × Bool)) (s : PostState)
    (h : voteInvariant s) : voteInvariant (apply_votes s ops) := by
  induction ops generalizing s with
  | nil => exact h
  | cons op rest ih => exact ih _ (voteInvariant_like_post _ _ _ h)

lemma voteInvariant_fresh : voteInvariant freshPost := by
  constructor <;> simp [freshPost, countVotes]

lemma like_post_twice_of_not_voted (s : PostState) (u : Nat) (b : Bool)
    (h : s.votes.find? (fun r => r.1 == u) = none) :
    like_post (like_post s u b) u b = s := by
  obtain ⟨likes, votes⟩ := s
  have hfilter : votes.filter (fun r => !(r.1 == u)) = votes := by
    apply List.filter_eq_self.mpr
    intro x hx
    have := List.find?_eq_none.mp h x hx
    simpa using this
  cases b
  · rw [like_post_false_none ⟨likes, votes⟩ u h]
    have hfind2 : ((votes ++ [(u, VoteType.dislike)]).find? (fun r => r.1 == u)) =
        some (u, VoteType.dislike) := by
      rw [List.find?_append]
      rw [show votes.find? (fun r => r.1 == u) = none from h]
      simp
    rw [like_post_false_same _ u (u, VoteType.dislike) hfind2 rfl]
    dsimp only
    rw [List.filter_append, hfilter]
    simp
  · rw [like_post_true_none ⟨likes, votes⟩ u h]
    have hfind2 : ((votes ++ [(u, VoteType.like)]).find? (fun r => r.1 == u)) =
        some (u, VoteType.like) := by
      rw [List.find?_append]
      rw [show votes.find? (fun r => r.1 == u) = none from h]
      simp
    rw [like_post_true_same _ u (u, VoteType.like) hfind2 rfl]
    dsimp only
    rw [List.filter_append, hfilter]
    simp

/-- C10: after any sequence of `like_post` calls on a fresh post, the
`likes` counter equals the number of like rows minus the number of dislike
rows in `user_votes`; and a user repeating the same vote from a no-vote
state removes their row and restores the state (counter included) to its
value before their first vote. -/
theorem C10_like_counter_matches_vote_rows :
    (∀ ops : List (Nat × Bool),
      (apply_votes freshPost ops).likes =
        (countVotes .like (apply_votes freshPost ops).votes : Int) -
          (countVotes .dislike (apply_votes freshPost ops).votes : Int)) ∧
    (∀ (s : PostState) (u : Nat) (b : Bool),
      s.votes.find? (fun r => r.1 == u) = none →
      like_post (like_post s u b) u b = s) :=
  ⟨fun ops => (voteInvariant_apply_votes ops freshPost voteInvariant_fresh).1,
    like_post_twice_of_not_voted⟩

/-- Closed witness for `C10_like_counter_matches_vote_rows`: a repeated
like by user 9 on a post with one unrelated vote restores the state. -/
theorem C10_like_counter_witness :
    like_post (like_post ⟨3, [(5, VoteType.like)]⟩ 9 true) 9 true =
      (⟨3, [(5, VoteType.like)]⟩ : PostState) :=
  C10_like_counter_matches_vote_rows.2 ⟨3, [(5, VoteType.like)]⟩ 9 true rfl

/-! ## Point ledger and ranking manager (spec-modelled) -/

/-- Modelled from the spec: a row of the `point_transactions` ledger
(spec §3, `PointTransaction`) of the missing `ranking_system.py` —
immutable once written. -/
structure PointTransaction where
  user_id : Nat
  event_type : String
  points_delta : Int
  timestamp : Nat
deriving Repr, DecidableEq

/-- Modelled from the spec: the ranking manager's state — the append-only
ledger plus the cached `user_rankings.total_points` column (a per-user
counter, here a total map defaulting to 0, matching the lazily initialized
zero total of spec §3 `UserRankState`), and a logical clock stamping
appended transactions. -/
structure RankingState where
  transactions : List PointTransaction
  totals : Nat → Int
  clock : Nat

/-- The initial state: empty ledger, all cached totals zero. -/
def initialRankingState : RankingState := ⟨[], fun _ => 0, 0⟩

/-- Modelled from the spec: `sum_for(user_id)` (spec §4.2) — a user's total
is a reduction over that user's transactions. -/
def sum_for (user_id : Nat) (transactions : List PointTransaction) : Int :=
  ((transactions.filter fun t => t.user_id == user_id).map
    PointTransaction.points_delta).sum

/-- Modelled from the spec: `award_points` of the missing
`ranking_system.py` (spec §6) — compute the delta with the point
calculator, append one ledger transaction, and update the user's cached
total by the delta. -/
def award_points (s : RankingState) (user_id : Nat) (event_type : String)
    (md : Metadata) : RankingState :=
  let delta := calculate_points event_type md
  { transactions := s.transactions ++ [⟨user_id, event_type, delta, s.clock⟩],
    totals := fun v => if v = user_id then s.totals v + delta else s.totals v,
    clock := s.clock + 1 }

/-- Run a sequence of scoring events through the ranking manager. -/
def run_awards (s : RankingState) (ops : List (Nat × String × Metadata)) :
    RankingState :=
  ops.foldl (fun s op => award_points s op.1 op.2.1 op.2.2) s

/-- Appending one transaction adds its delta to the owner's reduction and
leaves every other user's reduction unchanged. -/
theorem sum_for_append_singleton (u : Nat) (l : List PointTransaction)
    (t : PointTransaction) :
    sum_for u (l ++ [t]) = sum_for u l + (if t.user_id = u then t.points_delta else 0) := by
  simp only [sum_for, List.filter_append, List.map_append, List.sum_append,
    List.filter_cons, List.filter_nil]
  by_cases h : t.user_id = u
  · simp [h]
  · simp [h]

/-- One award preserves the cached-total/ledger-sum equivalence. -/
theorem totals_eq_sum_for_award (s : RankingState)
    (hinv : ∀ u, s.totals u = sum_for u s.transactions)
    (uid : Nat) (et : String) (md : Metadata) :
    ∀ u, (award_points s uid et md).totals u =
      sum_for u (award_points s uid et md).transactions := by
  intro u
  simp only [award_points]
  rw [sum_for_append_singleton]
  by_cases h : u = uid
  · subst h
    simp [hinv u]
  · have h' : ¬ (uid = u) := fun hh => h hh.symm
    simp [h, h', hinv u]

/-- Any run of awards preserves the cached-total/ledger-sum equivalence. -/
theorem totals_eq_sum_for_run (ops : List (Nat × String × Metadata)) (s : RankingState)
    (hinv : ∀ u, s.totals u = sum_for u s.transactions) :
    ∀ u, (run_awards s ops).totals u = sum_for u (run_awards s ops).transactions := by
  induction ops generalizing s with
  | nil => exact hinv
  | cons op rest ih => exact ih _ (totals_eq_sum_for_award s hinv op.1 op.2.1 op.2.2)

/-- C1: after any sequence of scoring events from the initial state, every
user's displayed cumulative total (the cached counter maintained by
`award_points`) equals `sum_for(user_id)`, the reduction over every
`PointTransaction` ever appended for that user — the counter never drifts
from the ledger sum. -/
theorem C1_ledger_total_equivalence :
    ∀ (ops : List (Nat × String × Metadata)) (u : Nat),
      (run_awards initialRankingState ops).totals u =
        sum_for u (run_awards initialRankingState ops).transactions :=
  fun ops u => totals_eq_sum_for_run ops initialRankingState
    (fun _ => by simp [initialRankingState, sum_for]) u
